import Mathlib

/-!
Verification of the mesito backend (machines and machine states).

The development shallowly embeds the data model (`src/mesito/model.py`),
the core operations (`src/mesito/operation.py`) and the relevant parts of
the front layer (`src/mesito/front/valid.py`, `src/mesito/front/out.py`).

The relational store is embedded as lists of rows in insertion (rowid)
order; a SQLAlchemy `.first()` query without `ORDER BY` is embedded as
`List.find?` in that order, and autoincremented primary keys are embedded
as explicit counters.  Timestamps (`BigInteger` columns) are embedded as
`Int`.  The optional float metric columns are only ever stored and copied
by the code, never computed with, so their values are carried as an
opaque numeric payload (`Int`) to keep every definition decidable.
Machine conditions are stored as their string values, exactly as in the
database column.
-/

namespace Mesito

/-- model.py `MachineCondition`: the enumeration of machine conditions. -/
inductive MachineCondition where
  | off
  | idle
  | working
  | retooling
  | broken
deriving DecidableEq

/-- model.py `MachineCondition`: the string value stored in the database. -/
def MachineCondition.value : MachineCondition → String
  | .off => "off"
  | .idle => "idle"
  | .working => "working"
  | .retooling => "retooling"
  | .broken => "broken"

/-- model.py `Machine` row as manipulated by operation.py: `id` and `name`
columns together with the `version` counter attribute that
`create_machine` initialises to 1 and `patch_machine` increments. -/
structure Machine where
  id : Nat
  name : String
  version : Nat
deriving DecidableEq

/-- model.py `MachineState` row.  Metric columns are nullable. -/
structure MachineState where
  id : Nat
  machine_id : Nat
  start : Int
  stop : Int
  condition : String
  min_power_consumption : Option Int := none
  max_power_consumption : Option Int := none
  avg_power_consumption : Option Int := none
  total_energy : Option Int := none
  pieces : Option Int := none
deriving DecidableEq

/-- The relational store reached through a session: the two tables in
rowid order plus the autoincrement counters for their primary keys. -/
structure Store where
  machines : List Machine
  states : List MachineState
  next_machine_id : Nat
  next_state_id : Nat
deriving DecidableEq

/-- front/error.py: the domain errors returned by the core operations. -/
inductive OpError where
  | machineNotFound (machine_id : Nat)
  | machineStateOverlap (start stop : Int) (machine_id : Nat)
  | machineStateConditionChanged (old new : String)
deriving DecidableEq

/-- front/error.py: the errors returned by the validation layer. -/
inductive FrontError where
  | schemaViolation (why : String)
  | constraintViolation (why : String)
deriving DecidableEq

/-- front/valid.py `MachinePost`: validated machine-creation data. -/
structure MachinePost where
  name : String
deriving DecidableEq

/-- front/valid.py `MachinePatch`: validated partial machine data
(`total=False`, the only property being `name`). -/
structure MachinePatch where
  name : Option String := none
deriving DecidableEq

/-- front/valid.py `MachineStatePut`: validated machine-state data;
the four mandatory fields plus the optional metrics. -/
structure MachineStatePut where
  machine_id : Nat
  start : Int
  stop : Int
  condition : String
  min_power_consumption : Option Int := none
  max_power_consumption : Option Int := none
  avg_power_consumption : Option Int := none
  total_energy : Option Int := none
  pieces : Option Int := none
deriving DecidableEq

/-- Replace the first element satisfying `p` by its image under `f`;
this is how mutating the row object returned by a `.first()` query and
committing shows up on the embedded table. -/
def updateFirst {α : Type} (p : α → Bool) (f : α → α) : List α → List α
  | [] => []
  | x :: xs => if p x then f x :: xs else x :: updateFirst p f xs

/-- operation.py `machine_exists`: whether a `machine` row with this id
is present. -/
def machine_exists (st : Store) (id : Nat) : Bool :=
  st.machines.any (fun m => decide (m.id = id))

/-- operation.py: `session.query(Machine).get(id)` as used by
`patch_machine`. -/
def get_machine (st : Store) (id : Nat) : Option Machine :=
  st.machines.find? (fun m => decide (m.id = id))

namespace Out

/-- front/out.py `Machine`: a machine cast for a JSON response. -/
structure Machine where
  id : Nat
  name : String
  version : Nat
deriving DecidableEq

/-- front/out.py `machine`: the output cast guarded by the two icontract
preconditions `id <= 2**53` and `version <= 2 * 53` (the latter written
exactly as in the source).  A violated precondition raises, which the
embedding renders as `none`. -/
def machine (id : Nat) (name : String) (version : Nat) : Option Machine :=
  if id ≤ 2 ^ 53 ∧ version ≤ 2 * 53 then
    some { id := id, name := name, version := version }
  else
    none

end Out

/-- operation.py `machines`: `ORDER BY name ASC` embedded as an insertion
sort on the name column (stable, so rowid order breaks ties). -/
def insert_by_name (machi : Machine) : List Machine → List Machine
  | [] => [machi]
  | x :: xs =>
    if machi.name ≤ x.name then machi :: x :: xs else x :: insert_by_name machi xs

/-- operation.py `machines`: the sorted machine table. -/
def sort_by_name : List Machine → List Machine
  | [] => []
  | x :: xs => insert_by_name x (sort_by_name xs)

/-- The result-list loop of operation.py `machines`: apply the output
cast to each row, propagating a precondition violation as `none`. -/
def mapOption {α β : Type} (f : α → Option β) : List α → Option (List β)
  | [] => some []
  | x :: xs =>
    match f x with
    | none => none
    | some y =>
      match mapOption f xs with
      | none => none
      | some ys => some (y :: ys)

/-- operation.py `machines`: list all machines sorted by name, cast for
output via `Out.machine`. -/
def machines (st : Store) : Option (List Out.Machine) :=
  mapOption (fun m => Out.machine m.id m.name m.version) (sort_by_name st.machines)

/-- operation.py `create_machine`: insert a machine with version 1 and
return its id and initial version. -/
def create_machine (st : Store) (data : MachinePost) : (Nat × Nat) × Store :=
  let machi : Machine := { id := st.next_machine_id, name := data.name, version := 1 }
  ((machi.id, machi.version),
   { st with
     machines := st.machines ++ [machi],
     next_machine_id := st.next_machine_id + 1 })

/-- operation.py `patch_machine`: the mutation applied to the fetched
machine row (name only when supplied; version always incremented). -/
def patch_apply (data : MachinePatch) (machi : Machine) : Machine :=
  { machi with
    name := match data.name with | some n => n | none => machi.name,
    version := machi.version + 1 }

/-- operation.py `patch_machine`: patch the machine, returning the new
version or `MachineNotFound`. -/
def patch_machine (st : Store) (id : Nat) (data : MachinePatch) :
    (Option Nat × Option OpError) × Store :=
  match get_machine st id with
  | none => ((none, some (OpError.machineNotFound id)), st)
  | some machi =>
    ((some (machi.version + 1), none),
     { st with
       machines := updateFirst (fun m => decide (m.id = id)) (patch_apply data) st.machines })

/-- operation.py `delete_machine`: delete the machine's states, then the
machine itself. -/
def delete_machine (st : Store) (id : Nat) : Store :=
  { st with
    states := st.states.filter (fun s => !decide (s.machine_id = id)),
    machines := st.machines.filter (fun m => !decide (m.id = id)) }

/-- operation.py `find_machine_state`: the filter of the `.first()`
query keyed by (machine id, start). -/
def state_key (machine_id : Nat) (start : Int) (s : MachineState) : Bool :=
  decide (s.machine_id = machine_id) && decide (s.start = start)

/-- operation.py `find_machine_state`: retrieve the machine state with
the given machine id and start, if any. -/
def find_machine_state (st : Store) (machine_id : Nat) (start : Int) :
    Option MachineState :=
  st.states.find? (state_key machine_id start)

/-- operation.py `machine_state_overlap`: the filter of the overlap
query (`start < stop AND stop > start AND machine_id = machine_id`). -/
def overlap_pred (machine_id : Nat) (start stop : Int) (s : MachineState) : Bool :=
  decide (s.start < stop) && decide (s.stop > start) && decide (s.machine_id = machine_id)

/-- operation.py `machine_state_overlap`: take the first row of the
overlap query; no conflict when there is none or when that row merely
prolongs the same start (`first.start == start and first.stop <= stop`);
otherwise report that row's interval. -/
def machine_state_overlap (machine_id : Nat) (start stop : Int) (st : Store) :
    Option (Int × Int) :=
  match st.states.find? (overlap_pred machine_id start stop) with
  | none => none
  | some first =>
    if first.start = start ∧ first.stop ≤ stop then none
    else some (first.start, first.stop)

/-- operation.py `put_machine_state`, upsert part: the fields written to
the machine-state row.  Note that the source copies `stop`, `condition`
and the four power/energy metrics but never assigns `pieces`. -/
def apply_put (data : MachineStatePut) (s : MachineState) : MachineState :=
  { s with
    stop := data.stop,
    condition := data.condition,
    min_power_consumption := data.min_power_consumption,
    max_power_consumption := data.max_power_consumption,
    avg_power_consumption := data.avg_power_consumption,
    total_energy := data.total_energy }

/-- operation.py `put_machine_state`, creation part: the fresh row built
when no row exists at this (machine id, start); its id is assigned by
the autoincrement counter at commit. -/
def new_state (st : Store) (data : MachineStatePut) : MachineState :=
  apply_put data
    { id := st.next_state_id,
      machine_id := data.machine_id,
      start := data.start,
      stop := data.stop,
      condition := data.condition }

/-- operation.py `put_machine_state`: upsert a machine state.  The
source's early returns become the explicit branches below: missing
machine, condition change on the found row, overlap, then update of the
found row or insertion of a fresh one. -/
def put_machine_state (st : Store) (data : MachineStatePut) :
    (Option Nat × Option OpError) × Store :=
  if machine_exists st data.machine_id = false then
    ((none, some (OpError.machineNotFound data.machine_id)), st)
  else
    match find_machine_state st data.machine_id data.start with
    | some machine_state =>
      if machine_state.condition ≠ data.condition then
        ((none, some (OpError.machineStateConditionChanged
            machine_state.condition data.condition)), st)
      else
        match machine_state_overlap data.machine_id data.start data.stop st with
        | some other =>
          ((none, some (OpError.machineStateOverlap other.1 other.2 data.machine_id)), st)
        | none =>
          ((some machine_state.id, none),
           { st with
             states := updateFirst (state_key data.machine_id data.start)
               (apply_put data) st.states })
    | none =>
      match machine_state_overlap data.machine_id data.start data.stop st with
      | some other =>
        ((none, some (OpError.machineStateOverlap other.1 other.2 data.machine_id)), st)
      | none =>
        ((some (new_state st data).id, none),
         { st with
           states := st.states ++ [new_state st data],
           next_state_id := st.next_state_id + 1 })

/-- front/valid.py: a JSON value as far as the validated schemas need to
distinguish them. -/
inductive Json where
  | str (s : String)
  | num (n : Int)
  | null
deriving DecidableEq

/-- front/valid.py `machine_post`: schema `{name: string}` with `name`
required and other properties unconstrained; on success the data is cast
unchanged. -/
def machine_post (data : List (String × Json)) :
    Option MachinePost × Option FrontError :=
  match (data.find? (fun kv => kv.1 == "name")).map Prod.snd with
  | some (Json.str s) => (some { name := s }, none)
  | some _ => (none, some (FrontError.schemaViolation "data.name must be string"))
  | none => (none, some (FrontError.schemaViolation "data must contain name"))

/-- front/valid.py `machine_patch`: schema `{name?: string}` with
`additionalProperties: false`, then the explicit rejection of the empty
patch; on success the data is cast unchanged. -/
def machine_patch (data : List (String × Json)) :
    Option MachinePatch × Option FrontError :=
  if (data.all (fun kv =>
      kv.1 == "name" && (match kv.2 with | Json.str _ => true | _ => false))) = false then
    (none, some (FrontError.schemaViolation "data must contain only specified properties"))
  else if data.length = 0 then
    (none, some (FrontError.constraintViolation "Empty patch"))
  else
    (some { name := match (data.find? (fun kv => kv.1 == "name")).map Prod.snd with
                    | some (Json.str s) => some s
                    | _ => none },
     none)

/-- Store for the C1 scenario: machine 1 with the two non-overlapping
state rows `[10, 20)` and `[20, 30)`, both reachable by the API. -/
def c1_store : Store :=
  { machines := [{ id := 1, name := "m", version := 1 }],
    states := [{ id := 1, machine_id := 1, start := 10, stop := 20, condition := "working" },
               { id := 2, machine_id := 1, start := 20, stop := 30, condition := "working" }],
    next_machine_id := 2,
    next_state_id := 3 }

/-- Proposed tuple for the C1 scenario: extend the `[10, 20)` row to
`[10, 25)`, which runs into the `[20, 30)` row. -/
def c1_data : MachineStatePut :=
  { machine_id := 1, start := 10, stop := 25, condition := "working" }

/-- Empty store from which the C2 run starts. -/
def c2_store0 : Store :=
  { machines := [], states := [], next_machine_id := 1, next_state_id := 1 }

/-- C2 run, step 0: create the machine. -/
def c2_st1 : Store := (create_machine c2_store0 { name := "some-machine" }).2

/-- C2 run, step 1: insert the state `[10, 20)`. -/
def c2_p1 : (Option Nat × Option OpError) × Store :=
  put_machine_state c2_st1
    { machine_id := 1, start := 10, stop := 20, condition := "working" }

/-- C2 run, step 2: insert the adjacent state `[20, 30)`. -/
def c2_p2 : (Option Nat × Option OpError) × Store :=
  put_machine_state c2_p1.2
    { machine_id := 1, start := 20, stop := 30, condition := "working" }

/-- C2 run, step 3: extend the first state to `[10, 25)`, into the
second one. -/
def c2_p3 : (Option Nat × Option OpError) × Store :=
  put_machine_state c2_p2.2
    { machine_id := 1, start := 10, stop := 25, condition := "working" }

/-- Store for the C8 scenario: machine 1, no state rows yet. -/
def c8_store : Store :=
  { machines := [{ id := 1, name := "m", version := 1 }], states := [],
    next_machine_id := 2, next_state_id := 1 }

/-- Data for the C8 scenario: a put carrying all five optional metrics,
`pieces` included. -/
def c8_data : MachineStatePut :=
  { machine_id := 1, start := 10, stop := 20, condition := "working",
    min_power_consumption := some 3, max_power_consumption := some 9,
    avg_power_consumption := some 5, total_energy := some 7, pieces := some 4 }

/-! Helper lemmas about `List.find?`, `updateFirst` and the other list
combinators used by the embedded operations. -/

theorem updateFirst_of_find?_none {α : Type} {p : α → Bool} {f : α → α} {l : List α}
    (h : l.find? p = none) : updateFirst p f l = l := by
  induction l with
  | nil => rfl
  | cons x xs ih =>
    rw [List.find?_cons] at h
    cases hx : p x
    · rw [hx] at h
      simp only [updateFirst, hx, Bool.false_eq_true, if_false]
      rw [ih h]
    · rw [hx] at h
      simp at h

theorem find?_updateFirst_self {α : Type} {p : α → Bool} {f : α → α} {l : List α}
    {a : α} (h : l.find? p = some a) (hfa : p (f a) = true) :
    (updateFirst p f l).find? p = some (f a) := by
  induction l with
  | nil => simp at h
  | cons x xs ih =>
    cases hx : p x
    · rw [List.find?_cons_of_neg _ (by simp [hx])] at h
      simp only [updateFirst, hx, Bool.false_eq_true, if_false]
      rw [List.find?_cons_of_neg _ (by simp [hx])]
      exact ih h
    · rw [List.find?_cons_of_pos _ hx] at h
      cases h
      simp only [updateFirst, hx, if_true]
      rw [List.find?_cons_of_pos _ hfa]

theorem updateFirst_updateFirst {α : Type} {p : α → Bool} {f : α → α}
    (hp : ∀ x, p x = true → p (f x) = true) (hff : ∀ x, f (f x) = f x)
    (l : List α) : updateFirst p f (updateFirst p f l) = updateFirst p f l := by
  induction l with
  | nil => rfl
  | cons x xs ih =>
    cases hx : p x
    · simp only [updateFirst, hx, Bool.false_eq_true, if_false, ih]
    · simp only [updateFirst, hx, if_true, hp x hx, hff x]

theorem find?_updateFirst_ok {α : Type} {p q e : α → Bool} {f : α → α}
    (H1 : ∀ x, p x = true → e (f x) = true)
    (H2 : ∀ x, p x = true → q x = true → q (f x) = true)
    {l : List α} (hok : ∀ r, l.find? q = some r → e r = true) :
    ∀ r, (updateFirst p f l).find? q = some r → e r = true := by
  induction l with
  | nil => intro r hr; simp [updateFirst] at hr
  | cons x xs ih =>
    cases hx : p x
    · simp only [updateFirst, hx, Bool.false_eq_true, if_false]
      intro r hr
      cases hqx : q x
      · rw [List.find?_cons_of_neg _ (by simp [hqx])] at hr
        have hok' : ∀ r, xs.find? q = some r → e r = true := by
          intro r' hr'
          exact hok r' (by rw [List.find?_cons_of_neg _ (by simp [hqx])]; exact hr')
        exact ih hok' r hr
      · rw [List.find?_cons_of_pos _ hqx] at hr
        cases hr
        exact hok x (List.find?_cons_of_pos _ hqx)
    · simp only [updateFirst, hx, if_true]
      intro r hr
      cases hqfx : q (f x)
      · rw [List.find?_cons_of_neg _ (by simp [hqfx])] at hr
        have hqx : q x = false := by
          cases hqx : q x
          · rfl
          · rw [H2 x hx hqx] at hqfx; cases hqfx
        exact hok r (by rw [List.find?_cons_of_neg _ (by simp [hqx])]; exact hr)
      · rw [List.find?_cons_of_pos _ hqfx] at hr
        cases hr
        exact H1 x hx

theorem mem_updateFirst_of_find? {α : Type} {p : α → Bool} {f : α → α} {l : List α}
    {m : α} (h : l.find? p = some m) :
    ∀ x ∈ updateFirst p f l, x ∈ l ∨ x = f m := by
  induction l with
  | nil => simp at h
  | cons y ys ih =>
    cases hy : p y
    · rw [List.find?_cons_of_neg _ (by simp [hy])] at h
      simp only [updateFirst, hy, Bool.false_eq_true, if_false]
      intro x hx
      rcases List.mem_cons.mp hx with rfl | hx'
      · exact Or.inl (List.mem_cons_self _ _)
      · rcases ih h x hx' with h' | h'
        · exact Or.inl (List.mem_cons_of_mem _ h')
        · exact Or.inr h'
    · rw [List.find?_cons_of_pos _ hy] at h
      cases h
      simp only [updateFirst, hy, if_true]
      intro x hx
      rcases List.mem_cons.mp hx with rfl | hx'
      · exact Or.inr rfl
      · exact Or.inl (List.mem_cons_of_mem _ hx')

theorem find?_append_of_none {α : Type} {p : α → Bool} {l1 l2 : List α}
    (h : l1.find? p = none) : (l1 ++ l2).find? p = l2.find? p := by
  induction l1 with
  | nil => rfl
  | cons x xs ih =>
    rw [List.find?_cons] at h
    cases hx : p x
    · rw [hx] at h
      rw [List.cons_append, List.find?_cons_of_neg _ (by simp [hx])]
      exact ih h
    · rw [hx] at h; simp at h

theorem updateFirst_append_of_none {α : Type} {p : α → Bool} {f : α → α}
    {l1 : List α} (l2 : List α) (h : l1.find? p = none) :
    updateFirst p f (l1 ++ l2) = l1 ++ updateFirst p f l2 := by
  induction l1 with
  | nil => rfl
  | cons x xs ih =>
    rw [List.find?_cons] at h
    cases hx : p x
    · rw [hx] at h
      simp only [List.cons_append, updateFirst, hx, Bool.false_eq_true, if_false]
      show x :: updateFirst p f (xs ++ l2) = x :: (xs ++ updateFirst p f l2)
      rw [ih h]
    · rw [hx] at h; simp at h

theorem mapOption_eq_none_of_mem {α β : Type} {f : α → Option β} {l : List α}
    {x : α} (hx : x ∈ l) (hfx : f x = none) : mapOption f l = none := by
  induction l with
  | nil => simp at hx
  | cons y ys ih =>
    rcases List.mem_cons.mp hx with rfl | hx'
    · simp [mapOption, hfx]
    · rw [mapOption]
      cases f y
      · rfl
      · rw [ih hx']

theorem mem_insert_by_name_self (m : Machine) (l : List Machine) :
    m ∈ insert_by_name m l := by
  induction l with
  | nil => exact List.mem_singleton.mpr rfl
  | cons x xs ih =>
    rw [insert_by_name]
    split
    · exact List.mem_cons_self _ _
    · exact List.mem_cons_of_mem _ ih

theorem mem_insert_by_name_of_mem {y : Machine} {l : List Machine} (m : Machine)
    (h : y ∈ l) : y ∈ insert_by_name m l := by
  induction l with
  | nil => simp at h
  | cons x xs ih =>
    rw [insert_by_name]
    split
    · exact List.mem_cons_of_mem _ h
    · rcases List.mem_cons.mp h with rfl | h'
      · exact List.mem_cons_self _ _
      · exact List.mem_cons_of_mem _ (ih h')

theorem mem_sort_by_name {x : Machine} {l : List Machine} (h : x ∈ l) :
    x ∈ sort_by_name l := by
  induction l with
  | nil => simp at h
  | cons y ys ih =>
    rw [sort_by_name]
    rcases List.mem_cons.mp h with rfl | h'
    · exact mem_insert_by_name_self _ _
    · exact mem_insert_by_name_of_mem _ (ih h')

/-- `put_machine_state` never touches the `machine` table. -/
theorem put_machine_state_machines (st : Store) (data : MachineStatePut) :
    ((put_machine_state st data).2).machines = st.machines := by
  rw [put_machine_state]
  split
  · rfl
  · split
    · split
      · rfl
      · split
        · rfl
        · rfl
    · split
      · rfl
      · rfl

/-- The overlap check returns no conflict when every row the overlap
query can return satisfies the same-start exemption. -/
theorem machine_state_overlap_eq_none_of_all_exempt (machine_id : Nat)
    (start stop : Int) (st : Store)
    (hall : ∀ r, st.states.find? (overlap_pred machine_id start stop) = some r →
      decide (r.start = start ∧ r.stop ≤ stop) = true) :
    machine_state_overlap machine_id start stop st = none := by
  rw [machine_state_overlap]
  cases hfq : st.states.find? (overlap_pred machine_id start stop) with
  | none => rfl
  | some r =>
    show (if r.start = start ∧ r.stop ≤ stop then none else some (r.start, r.stop)) = none
    rw [if_pos (of_decide_eq_true (hall r hfq))]

/-- Branch equation for `put_machine_state`: the successful update of a
found row. -/
theorem put_machine_state_update_eq (st : Store) (data : MachineStatePut)
    (ms : MachineState)
    (hex : machine_exists st data.machine_id = true)
    (hfind : find_machine_state st data.machine_id data.start = some ms)
    (hcond : ¬(ms.condition ≠ data.condition))
    (hov : machine_state_overlap data.machine_id data.start data.stop st = none) :
    put_machine_state st data =
      ((some ms.id, none),
       { st with states := (updateFirst (state_key data.machine_id data.start) (apply_put data) st.states) }) := by
  rw [put_machine_state, if_neg (by simp [hex]), hfind]
  simp [hcond, hov]

/-- Inversion of a successful `put_machine_state` call: the machine
exists, the overlap query reported no conflict, and the call either
updated the row found at (machine id, start) or inserted a fresh row. -/
theorem put_machine_state_success_inv (st : Store) (data : MachineStatePut)
    (i : Nat) (st' : Store)
    (h : put_machine_state st data = ((some i, none), st')) :
    machine_exists st data.machine_id = true ∧
    machine_state_overlap data.machine_id data.start data.stop st = none ∧
    ((∃ ms, find_machine_state st data.machine_id data.start = some ms ∧
        ¬(ms.condition ≠ data.condition) ∧ ms.id = i ∧
        st' = { st with states := (updateFirst (state_key data.machine_id data.start) (apply_put data) st.states) }) ∨
     (find_machine_state st data.machine_id data.start = none ∧
        i = st.next_state_id ∧
        st' = { st with states := st.states ++ [new_state st data], next_state_id := st.next_state_id + 1 })) := by
  rw [put_machine_state] at h
  split at h
  next hex => simp at h
  next hex =>
    have hex' : machine_exists st data.machine_id = true := by
      revert hex
      cases machine_exists st data.machine_id <;> simp
    split at h
    next ms hfind =>
      split at h
      next hcond => simp at h
      next hcond =>
        split at h
        next other hov => simp at h
        next hov =>
          simp only [Prod.mk.injEq, Option.some.injEq, and_true, true_and] at h
          obtain ⟨hid, hstate⟩ := h
          exact ⟨hex', hov, Or.inl ⟨ms, hfind, hcond, hid, hstate.symm⟩⟩
    next hfind =>
      split at h
      next other hov => simp at h
      next hov =>
        simp only [Prod.mk.injEq, Option.some.injEq, and_true, true_and] at h
        obtain ⟨hid, hstate⟩ := h
        exact ⟨hex', hov, Or.inr ⟨hfind, hid.symm, hstate.symm⟩⟩

/-! Claim theorems. -/

/-- C4: `put_machine_state` is idempotent on success — when a call with
`data` succeeds returning row id `i` and store `st'`, the identical call
on `st'` returns the same row id `i` and leaves `st'` unchanged. -/
theorem put_machine_state_idempotent (st : Store) (data : MachineStatePut)
    (i : Nat) (st' : Store)
    (h : put_machine_state st data = ((some i, none), st')) :
    put_machine_state st' data = ((some i, none), st') := by
  obtain ⟨hex, hov, hcase⟩ := put_machine_state_success_inv st data i st' h
  have h2 : (put_machine_state st data).2 = st' := congrArg Prod.snd h
  have hm : st'.machines = st.machines := by
    rw [← h2, put_machine_state_machines]
  have hex2 : machine_exists st' data.machine_id = true := by
    rw [machine_exists, hm]
    exact hex
  have hok : ∀ r,
      st.states.find? (overlap_pred data.machine_id data.start data.stop) = some r →
      decide (r.start = data.start ∧ r.stop ≤ data.stop) = true := by
    intro r hr
    rw [machine_state_overlap, hr] at hov
    by_cases hexr : r.start = data.start ∧ r.stop ≤ data.stop
    · exact decide_eq_true hexr
    · simp [hexr] at hov
  rcases hcase with ⟨ms, hfind, hcond, hid, hst'⟩ | ⟨hfind, hid, hst'⟩
  · -- first call updated the row found at (machine id, start)
    have hstates : st'.states =
        updateFirst (state_key data.machine_id data.start) (apply_put data) st.states := by
      rw [hst']
    have hkf0 : state_key data.machine_id data.start ms = true :=
      List.find?_some hfind
    have hkf : state_key data.machine_id data.start (apply_put data ms) = true := hkf0
    have hfind2 : find_machine_state st' data.machine_id data.start =
        some (apply_put data ms) := by
      show st'.states.find? (state_key data.machine_id data.start) = some (apply_put data ms)
      rw [hstates]
      exact find?_updateFirst_self hfind hkf
    have hcond2 : ¬((apply_put data ms).condition ≠ data.condition) := fun hne => hne rfl
    have hov2 : machine_state_overlap data.machine_id data.start data.stop st' = none := by
      apply machine_state_overlap_eq_none_of_all_exempt
      have H1 : ∀ x, state_key data.machine_id data.start x = true →
          decide ((apply_put data x).start = data.start ∧
            (apply_put data x).stop ≤ data.stop) = true := by
        intro x hx
        simp only [state_key, Bool.and_eq_true, decide_eq_true_eq] at hx
        exact decide_eq_true ⟨hx.2, le_refl _⟩
      have H2 : ∀ x, state_key data.machine_id data.start x = true →
          overlap_pred data.machine_id data.start data.stop x = true →
          overlap_pred data.machine_id data.start data.stop (apply_put data x) = true := by
        intro x hx hq
        simp only [state_key, Bool.and_eq_true, decide_eq_true_eq] at hx
        simp only [overlap_pred, Bool.and_eq_true, decide_eq_true_eq] at hq ⊢
        exact ⟨⟨hq.1.1, by rw [← hx.2]; exact hq.1.1⟩, hx.1⟩
      intro r hr
      refine find?_updateFirst_ok
        (p := state_key data.machine_id data.start)
        (q := overlap_pred data.machine_id data.start data.stop)
        (e := fun r => decide (r.start = data.start ∧ r.stop ≤ data.stop))
        (f := apply_put data) H1 H2 hok r ?_
      rw [← hstates]
      exact hr
    have hsecond := put_machine_state_update_eq st' data (apply_put data ms)
      hex2 hfind2 hcond2 hov2
    rw [hsecond]
    have hid2 : (apply_put data ms).id = i := hid
    rw [hid2]
    have hupdate : updateFirst (state_key data.machine_id data.start)
        (apply_put data) st'.states = st'.states := by
      rw [hstates]
      exact updateFirst_updateFirst (p := state_key data.machine_id data.start)
        (f := apply_put data) (fun x hx => hx) (fun x => rfl) st.states
    rw [hupdate]
  · -- first call inserted a fresh row
    have hfind' : st.states.find? (state_key data.machine_id data.start) = none := hfind
    have hstates : st'.states = st.states ++ [new_state st data] := by
      rw [hst']
    have hqnone :
        st.states.find? (overlap_pred data.machine_id data.start data.stop) = none := by
      cases hfq : st.states.find? (overlap_pred data.machine_id data.start data.stop) with
      | none => rfl
      | some r =>
        have hexr := of_decide_eq_true (hok r hfq)
        have hqr := List.find?_some hfq
        simp only [overlap_pred, Bool.and_eq_true, decide_eq_true_eq] at hqr
        have hkr : state_key data.machine_id data.start r = true := by
          simp only [state_key, Bool.and_eq_true, decide_eq_true_eq]
          exact ⟨hqr.2, hexr.1⟩
        have hnk := List.find?_eq_none.mp hfind' r (List.mem_of_find?_eq_some hfq)
        exact absurd hkr hnk
    have hknew : state_key data.machine_id data.start (new_state st data) = true := by
      simp [state_key, new_state, apply_put]
    have hfind2 : find_machine_state st' data.machine_id data.start =
        some (new_state st data) := by
      show st'.states.find? (state_key data.machine_id data.start) = some (new_state st data)
      rw [hstates, find?_append_of_none hfind', List.find?_cons_of_pos _ hknew]
    have hcond2 : ¬((new_state st data).condition ≠ data.condition) := fun hne => hne rfl
    have hov2 : machine_state_overlap data.machine_id data.start data.stop st' = none := by
      apply machine_state_overlap_eq_none_of_all_exempt
      intro r hr
      rw [hstates, find?_append_of_none hqnone] at hr
      cases hq : overlap_pred data.machine_id data.start data.stop (new_state st data) with
      | false =>
        rw [List.find?_cons_of_neg _ (by simp [hq])] at hr
        exact absurd hr (by simp)
      | true =>
        rw [List.find?_cons_of_pos _ hq] at hr
        cases hr
        exact decide_eq_true ⟨rfl, le_refl _⟩
    have hsecond := put_machine_state_update_eq st' data (new_state st data)
      hex2 hfind2 hcond2 hov2
    rw [hsecond]
    have hid2 : (new_state st data).id = i := hid.symm
    rw [hid2]
    have hupdate : updateFirst (state_key data.machine_id data.start)
        (apply_put data) st'.states = st'.states := by
      rw [hstates, updateFirst_append_of_none _ hfind']
      have hsingle : updateFirst (state_key data.machine_id data.start)
          (apply_put data) [new_state st data] = [new_state st data] := by
        simp only [updateFirst, hknew, if_true]
        rfl
      rw [hsingle]
    rw [hupdate]

/-- C4 witness: putting `[1000, 2000)` for machine 1 twice returns row
id 1 both times and the second call leaves the store unchanged. -/
theorem put_machine_state_idempotent_witness :
    put_machine_state
      { machines := [{ id := 1, name := "m", version := 1 }],
        states := [{ id := 1, machine_id := 1, start := 1000, stop := 2000,
                     condition := "working" }],
        next_machine_id := 2, next_state_id := 2 }
      { machine_id := 1, start := 1000, stop := 2000, condition := "working" } =
      ((some 1, none),
       { machines := [{ id := 1, name := "m", version := 1 }],
         states := [{ id := 1, machine_id := 1, start := 1000, stop := 2000,
                      condition := "working" }],
         next_machine_id := 2, next_state_id := 2 }) :=
  put_machine_state_idempotent
    { machines := [{ id := 1, name := "m", version := 1 }], states := [],
      next_machine_id := 2, next_state_id := 1 }
    { machine_id := 1, start := 1000, stop := 2000, condition := "working" }
    1
    { machines := [{ id := 1, name := "m", version := 1 }],
      states := [{ id := 1, machine_id := 1, start := 1000, stop := 2000,
                   condition := "working" }],
      next_machine_id := 2, next_state_id := 2 }
    (by decide)

/-- C1: the claim says `put_machine_state` fails with `StateOverlap`
whenever some row for the same machine intersects `[start, stop)` and is
not the same-start exemption.  The code examines only the first row the
overlap query returns: here the row `[20, 30)` intersects `[10, 25)` and
is not exempt, yet the call succeeds because the first intersecting row
`[10, 20)` is the exempt one.  This theorem evaluates the code at that
failing input. -/
theorem put_machine_state_misses_second_overlap :
    (∃ r ∈ c1_store.states,
      overlap_pred c1_data.machine_id c1_data.start c1_data.stop r = true ∧
      ¬(r.start = c1_data.start ∧ r.stop ≤ c1_data.stop)) ∧
    (put_machine_state c1_store c1_data).1 = (some 1, none) := by decide

/-- C2: the claimed invariant — no two rows of the same machine with
intersecting `[start, stop)` intervals in any reachable store — is
violated by the code: the sequence create, put `[10,20)`, put `[20,30)`,
put `[10,25)` consists solely of accepted operations from the empty
store, and the final store holds the intersecting rows `[10, 25)` and
`[20, 30)` for machine 1. -/
theorem reachable_store_with_overlapping_states :
    c2_p1.1 = (some 1, none) ∧
    c2_p2.1 = (some 2, none) ∧
    c2_p3.1 = (some 1, none) ∧
    ∃ r1 ∈ c2_p3.2.states, ∃ r2 ∈ c2_p3.2.states,
      r1.id ≠ r2.id ∧ r1.machine_id = r2.machine_id ∧
      r1.start < r2.stop ∧ r2.start < r1.stop := by decide

/-- C3: when the machine exists and a state row is found at the proposed
start with a different condition, `put_machine_state` fails with
`ConditionChanged{old, new}` — whatever the proposed stop (and the other
fields of `data`) — and returns the store unchanged. -/
theorem put_machine_state_condition_changed (st : Store) (data : MachineStatePut)
    (ms : MachineState)
    (hmach : machine_exists st data.machine_id = true)
    (hfind : find_machine_state st data.machine_id data.start = some ms)
    (hcond : ms.condition ≠ data.condition) :
    put_machine_state st data =
      ((none, some (OpError.machineStateConditionChanged ms.condition data.condition)),
       st) := by
  rw [put_machine_state, if_neg (by simp [hmach]), hfind]
  simp [hcond]

/-- C3 witness: a machine with a `working` row at start 10 rejects a
`broken` update at the same start. -/
theorem put_machine_state_condition_changed_witness :
    put_machine_state
      { machines := [{ id := 1, name := "m", version := 1 }],
        states := [{ id := 1, machine_id := 1, start := 10, stop := 20,
                     condition := "working" }],
        next_machine_id := 2, next_state_id := 2 }
      { machine_id := 1, start := 10, stop := 25, condition := "broken" } =
      ((none, some (OpError.machineStateConditionChanged "working" "broken")),
       { machines := [{ id := 1, name := "m", version := 1 }],
         states := [{ id := 1, machine_id := 1, start := 10, stop := 20,
                      condition := "working" }],
         next_machine_id := 2, next_state_id := 2 }) :=
  put_machine_state_condition_changed _ _
    { id := 1, machine_id := 1, start := 10, stop := 20, condition := "working" }
    (by decide) (by decide) (by decide)

/-- C5: when the machine exists and has no state rows at all, any valid
tuple with `start ≤ stop` is inserted as exactly one new row carrying
the given machine id, start, stop and condition, and the returned id is
the fresh autoincrement value, distinct from every existing row id. -/
theorem put_machine_state_fresh_insert (st : Store) (data : MachineStatePut)
    (hmach : machine_exists st data.machine_id = true)
    (hnone : ∀ r ∈ st.states, r.machine_id ≠ data.machine_id)
    (hids : ∀ r ∈ st.states, r.id < st.next_state_id)
    (_hvalid : data.start ≤ data.stop) :
    put_machine_state st data =
      ((some st.next_state_id, none),
       { st with
         states := st.states ++ [new_state st data],
         next_state_id := st.next_state_id + 1 }) ∧
    new_state st data =
      { id := st.next_state_id, machine_id := data.machine_id, start := data.start,
        stop := data.stop, condition := data.condition,
        min_power_consumption := data.min_power_consumption,
        max_power_consumption := data.max_power_consumption,
        avg_power_consumption := data.avg_power_consumption,
        total_energy := data.total_energy, pieces := none } ∧
    ∀ r ∈ st.states, r.id ≠ st.next_state_id := by
  refine ⟨?_, rfl, fun r hr => Nat.ne_of_lt (hids r hr)⟩
  have hf : find_machine_state st data.machine_id data.start = none := by
    apply List.find?_eq_none.mpr
    intro x hx
    simp only [state_key, Bool.and_eq_true, decide_eq_true_eq, not_and]
    intro hmid
    exact absurd hmid (hnone x hx)
  have hov : st.states.find? (overlap_pred data.machine_id data.start data.stop) = none := by
    apply List.find?_eq_none.mpr
    intro x hx
    simp only [overlap_pred, Bool.and_eq_true, decide_eq_true_eq, not_and]
    intro _ hmid
    exact hnone x hx hmid
  rw [put_machine_state, if_neg (by simp [hmach]), hf, machine_state_overlap, hov]
  rfl

/-- C5 witness: inserting `[10, 20)` for machine 1 into a store with no
state rows. -/
theorem put_machine_state_fresh_insert_witness :
    put_machine_state
      { machines := [{ id := 1, name := "m", version := 1 }], states := [],
        next_machine_id := 2, next_state_id := 1 }
      { machine_id := 1, start := 10, stop := 20, condition := "working" } =
      ((some 1, none),
       { machines := [{ id := 1, name := "m", version := 1 }],
         states := [{ id := 1, machine_id := 1, start := 10, stop := 20,
                      condition := "working" }],
         next_machine_id := 2, next_state_id := 2 }) :=
  (put_machine_state_fresh_insert
    { machines := [{ id := 1, name := "m", version := 1 }], states := [],
      next_machine_id := 2, next_state_id := 1 }
    { machine_id := 1, start := 10, stop := 20, condition := "working" }
    (by decide) (by decide) (by decide) (by decide)).1

/-- C6: patching an existing machine returns its previous version plus
exactly 1 (whatever the data), changes only the supplied fields of that
machine — its id in particular is unchanged — and leaves every other
machine untouched; patching a non-existent id returns
`MachineNotFound{machine_id}` and leaves the store unchanged. -/
theorem patch_machine_spec (st : Store) (id : Nat) (data : MachinePatch) :
    (∀ m, get_machine st id = some m →
      (patch_machine st id data).1 = (some (m.version + 1), none) ∧
      get_machine ((patch_machine st id data).2) id = some (patch_apply data m) ∧
      (patch_apply data m).id = m.id ∧
      (patch_apply data m).version = m.version + 1 ∧
      (patch_apply data m).name = (match data.name with | some n => n | none => m.name) ∧
      ∀ x ∈ ((patch_machine st id data).2).machines, x ∈ st.machines ∨ x = patch_apply data m) ∧
    (get_machine st id = none →
      patch_machine st id data = ((none, some (OpError.machineNotFound id)), st)) := by
  constructor
  · intro m hm
    have hid : decide ((patch_apply data m).id = id) = true := by
      have := List.find?_some hm
      simpa [patch_apply] using this
    rw [patch_machine, hm]
    refine ⟨rfl, ?_, rfl, rfl, rfl, ?_⟩
    · exact find?_updateFirst_self hm hid
    · intro x hx
      exact mem_updateFirst_of_find? hm x hx
  · intro hm
    rw [patch_machine, hm]

/-- C6 witness: renaming machine 1 bumps its version from 1 to 2 and
keeps its id; patching the absent id 5 fails with `MachineNotFound`. -/
theorem patch_machine_spec_witness :
    ((patch_machine
        { machines := [{ id := 1, name := "some-machine", version := 1 }],
          states := [], next_machine_id := 2, next_state_id := 1 }
        1 { name := some "renamed-machine" }).1 = (some 2, none) ∧
     get_machine
        ((patch_machine
          { machines := [{ id := 1, name := "some-machine", version := 1 }],
            states := [], next_machine_id := 2, next_state_id := 1 }
          1 { name := some "renamed-machine" }).2) 1 =
        some { id := 1, name := "renamed-machine", version := 2 }) ∧
    patch_machine
      { machines := [{ id := 1, name := "some-machine", version := 1 }],
        states := [], next_machine_id := 2, next_state_id := 1 }
      5 { name := some "renamed-machine" } =
      ((none, some (OpError.machineNotFound 5)),
       { machines := [{ id := 1, name := "some-machine", version := 1 }],
         states := [], next_machine_id := 2, next_state_id := 1 }) := by
  constructor
  · have h := (patch_machine_spec
      { machines := [{ id := 1, name := "some-machine", version := 1 }],
        states := [], next_machine_id := 2, next_state_id := 1 }
      1 { name := some "renamed-machine" }).1
      { id := 1, name := "some-machine", version := 1 } (by decide)
    exact ⟨h.1, h.2.1⟩
  · exact (patch_machine_spec
      { machines := [{ id := 1, name := "some-machine", version := 1 }],
        states := [], next_machine_id := 2, next_state_id := 1 }
      5 { name := some "renamed-machine" }).2 (by decide)

/-- C7: `delete_machine` always succeeds; afterwards the machine is gone,
none of its state rows remain, and any `put_machine_state` for that
machine id fails with `MachineNotFound{machine_id}` leaving the store
unchanged. -/
theorem delete_machine_spec (st : Store) (id : Nat) :
    machine_exists (delete_machine st id) id = false ∧
    (∀ r ∈ (delete_machine st id).states, r.machine_id ≠ id) ∧
    (∀ data : MachineStatePut, data.machine_id = id →
      put_machine_state (delete_machine st id) data =
        ((none, some (OpError.machineNotFound id)), delete_machine st id)) := by
  have hex : machine_exists (delete_machine st id) id = false := by
    rw [machine_exists, delete_machine]
    simp [List.any_eq_true, List.mem_filter]
  refine ⟨hex, ?_, ?_⟩
  · intro r hr
    rw [delete_machine] at hr
    simp only [List.mem_filter, Bool.not_eq_eq_eq_not, Bool.not_true,
      decide_eq_false_iff_not] at hr
    exact hr.2
  · intro data hdata
    rw [put_machine_state, if_pos (by rw [hdata, hex]), hdata]

/-- C7 witness: deleting machine 1 (which has a state row) removes the
machine and its row, and a later put for machine 1 is rejected. -/
theorem delete_machine_spec_witness :
    machine_exists
      (delete_machine
        { machines := [{ id := 1, name := "m", version := 1 }],
          states := [{ id := 1, machine_id := 1, start := 10, stop := 20,
                       condition := "working" }],
          next_machine_id := 2, next_state_id := 2 } 1) 1 = false ∧
    put_machine_state
      (delete_machine
        { machines := [{ id := 1, name := "m", version := 1 }],
          states := [{ id := 1, machine_id := 1, start := 10, stop := 20,
                       condition := "working" }],
          next_machine_id := 2, next_state_id := 2 } 1)
      { machine_id := 1, start := 30, stop := 40, condition := "working" } =
      ((none, some (OpError.machineNotFound 1)),
       delete_machine
        { machines := [{ id := 1, name := "m", version := 1 }],
          states := [{ id := 1, machine_id := 1, start := 10, stop := 20,
                       condition := "working" }],
          next_machine_id := 2, next_state_id := 2 } 1) :=
  ⟨(delete_machine_spec
      { machines := [{ id := 1, name := "m", version := 1 }],
        states := [{ id := 1, machine_id := 1, start := 10, stop := 20,
                     condition := "working" }],
        next_machine_id := 2, next_state_id := 2 } 1).1,
   (delete_machine_spec
      { machines := [{ id := 1, name := "m", version := 1 }],
        states := [{ id := 1, machine_id := 1, start := 10, stop := 20,
                     condition := "working" }],
        next_machine_id := 2, next_state_id := 2 } 1).2.2
      { machine_id := 1, start := 30, stop := 40, condition := "working" } rfl⟩

/-- C8: the claim says every supplied metric, `pieces` included, is
stored on the resulting row.  The upsert in `put_machine_state` copies
the four power/energy metrics but never assigns `pieces`: after a
successful put that supplies `pieces = 4`, the stored row has
`pieces = none` while the other four metrics hold the supplied values.
This theorem evaluates the code at that failing input. -/
theorem put_machine_state_never_stores_pieces :
    c8_data.pieces = some 4 ∧
    (put_machine_state c8_store c8_data).1 = (some 1, none) ∧
    find_machine_state (put_machine_state c8_store c8_data).2 1 10 =
      some { id := 1, machine_id := 1, start := 10, stop := 20, condition := "working",
             min_power_consumption := some 3, max_power_consumption := some 9,
             avg_power_consumption := some 5, total_energy := some 7,
             pieces := none } := by decide

/-- C9 counterexample: the claim says an empty `name` is rejected by the
validation layer; in fact `machine_post` and `machine_patch` validate
only that `name` is a string, so the empty string is cast successfully
with no error. -/
theorem machine_post_accepts_empty_name :
    machine_post [("name", Json.str "")] = (some { name := "" }, none) ∧
    machine_patch [("name", Json.str "")] = (some { name := some "" }, none) := by
  decide

/-- C9 amended: every machine-create input whose `name` field is the
empty string passes `machine_post` and is cast with the empty name (and
likewise the empty-string rename passes `machine_patch`), so an empty
name does reach the core operations. -/
theorem empty_name_passes_validation :
    (∀ data : List (String × Json),
      (data.find? (fun kv => kv.1 == "name")).map Prod.snd = some (Json.str "") →
      machine_post data = (some { name := "" }, none)) ∧
    machine_patch [("name", Json.str "")] = (some { name := some "" }, none) := by
  constructor
  · intro data h
    rw [machine_post, h]
  · decide

/-- C9 amended witness: the singleton object with the empty name. -/
theorem empty_name_passes_validation_witness :
    machine_post [("name", Json.str "")] = (some { name := "" }, none) :=
  empty_name_passes_validation.1 [("name", Json.str "")] (by decide)

/-- C10: the output cast `Out.machine` demands `version ≤ 2 * 53 = 106`
(a typo for `2 ** 53` in the source): for every version at most 106 (and
id within the JSON-double bound) the cast succeeds and returns the
machine unchanged, while for every version above 106 — well within what
a JSON double represents exactly — the cast fails, and the machine
listing operation fails with it. -/
theorem out_machine_version_bound :
    (∀ (id : Nat) (name : String) (v : Nat), id ≤ 2 ^ 53 → v ≤ 106 →
      Out.machine id name v = some { id := id, name := name, version := v }) ∧
    (∀ (id : Nat) (name : String) (v : Nat), 106 < v →
      Out.machine id name v = none) ∧
    (∀ (st : Store) (m : Machine), m ∈ st.machines → 106 < m.version →
      machines st = none) := by
  refine ⟨?_, ?_, ?_⟩
  · intro id name v h1 h2
    rw [Out.machine, if_pos ⟨h1, by omega⟩]
  · intro id name v h
    rw [Out.machine, if_neg]
    rintro ⟨-, h2⟩
    omega
  · intro st m hm hv
    have hcast : Out.machine m.id m.name m.version = none := by
      rw [Out.machine, if_neg]
      rintro ⟨-, h2⟩
      omega
    exact mapOption_eq_none_of_mem (mem_sort_by_name hm) hcast

/-- C10 witness: version 106 passes the cast, version 107 fails it, and
listing a store holding a machine at version 107 fails. -/
theorem out_machine_version_bound_witness :
    Out.machine 1 "m" 106 = some { id := 1, name := "m", version := 106 } ∧
    Out.machine 1 "m" 107 = none ∧
    machines
      { machines := [{ id := 1, name := "m", version := 107 }], states := [],
        next_machine_id := 2, next_state_id := 1 } = none :=
  ⟨out_machine_version_bound.1 1 "m" 106 (by decide) (by decide),
   out_machine_version_bound.2.1 1 "m" 107 (by decide),
   out_machine_version_bound.2.2
     { machines := [{ id := 1, name := "m", version := 107 }], states := [],
       next_machine_id := 2, next_state_id := 1 }
     { id := 1, name := "m", version := 107 } (by decide) (by decide)⟩

end Mesito
